import Mathlib

/-!
Shallow embedding of the resilience dispatcher
(`src/homeworks/resilience/{client,multi_client,strategies,sender}.py`).

Modelling conventions:
* HTTP status codes are `Nat` (`HTTPStatus.OK = 200`).
* `timedelta` / `datetime` values are rationals (seconds / seconds since an
  arbitrary epoch); `float` rates and factors are rationals.
* The transport (`ISender.send`) is an oracle `Nat → Nat × ℚ` giving, for the
  k-th transport invocation of a run, the outcome status and the wall-clock
  duration of that invocation.
* `asyncio.wait_for(task, timeout)` completes iff the task's duration is at
  most `timeout`, otherwise it raises `TimeoutError`.
* The recursive `Client.request` is expressed with a fuel argument kept equal
  to `max_retries - current_attempt`; the fuel-zero fallback returns the same
  `MAX_RETRIES_EXCEEDED` result as the source's `>=` guard, which is the only
  state in which the fuel can run out.
-/

namespace Resilience

/-- `strategies.ExhaustedReason`. -/
inductive ExhaustedReason where
  | maxRetriesExceeded
  | latencyBudgetExhausted
  | nonRetryableError
  | circuitBreakerOpen
deriving DecidableEq, Repr

/-- The visible result of `Client.request`: the HTTP-200 return or a raised
`ResilienceStrategyExhausted(reason)`. -/
inductive ReqResult where
  | success
  | exhausted (reason : ExhaustedReason)
deriving DecidableEq, Repr

/-- `strategies.ResilienceStrategy` (the `extra_strategy` field is passed
separately to the variant that consumes it). -/
structure ResilienceStrategy where
  maxRetries : Nat
  latencyBudget : ℚ
  fastErrors : List Nat
deriving DecidableEq, Repr

/-- `strategies.BackoffStrategy`. -/
structure BackoffStrategy where
  initialDelay : ℚ
  backoffFactor : ℚ
deriving DecidableEq, Repr

/-- `strategies.HedgingStrategy`. -/
structure HedgingStrategy where
  hedgingDelay : ℚ
deriving DecidableEq, Repr

/-- `strategies.CircuitBreakerStrategy`. -/
structure CircuitBreakerStrategy where
  windowSize : Nat
  failureThreshold : ℚ
  recoveryTimeout : ℚ
deriving DecidableEq, Repr

/-- Observable outcome of one `Client.request` call:
* `result` — the returned value / raised reason;
* `trace` — the `(outcome, duration)` of every transport call that completed
  (a timed-out call contributes no observed outcome);
* `calls` — number of `sender.send` invocations (timed-out ones included);
* `attempts` — final `_current_attempt`;
* `timeSpent` — final `_time_spent`. -/
structure RunResult where
  result : ReqResult
  trace : List (Nat × ℚ)
  calls : Nat
  attempts : Nat
  timeSpent : ℚ
deriving DecidableEq, Repr

/-- `Client.request` (`client.py`), state-passing form.  `a` is
`_current_attempt`, `t` is `_time_spent`, `c` counts transport invocations
(the oracle index).  The fuel is `maxRetries - a` at every reachable call, so
the fuel-zero fallback coincides with the `_current_attempt >= max_retries`
guard. -/
def requestAux (s : ResilienceStrategy) (tr : Nat → Nat × ℚ) :
    Nat → Nat → ℚ → Nat → RunResult
  | fuel, a, t, c =>
    if s.maxRetries ≤ a then ⟨.exhausted .maxRetriesExceeded, [], c, a, t⟩
    else
      match fuel with
      | 0 => ⟨.exhausted .maxRetriesExceeded, [], c, a, t⟩
      | fuel' + 1 =>
        let rem := s.latencyBudget - t
        if rem ≤ 0 then ⟨.exhausted .latencyBudgetExhausted, [], c, a, t⟩
        else
          let od := tr c
          if rem < od.2 then ⟨.exhausted .latencyBudgetExhausted, [], c + 1, a, t⟩
          else if od.1 ∈ s.fastErrors then
            ⟨.exhausted .nonRetryableError, [od], c + 1, a, t⟩
          else if od.1 = 200 then ⟨.success, [od], c + 1, a, t⟩
          else
            let r := requestAux s tr fuel' (a + 1) (t + od.2) (c + 1)
            ⟨r.result, od :: r.trace, r.calls, r.attempts, r.timeSpent⟩

/-- A fresh client's `request(payload)`: `_current_attempt = 0`,
`_time_spent = 0`. -/
def request (s : ResilienceStrategy) (tr : Nat → Nat × ℚ) : RunResult :=
  requestAux s tr s.maxRetries 0 0 0

/-- The delay computed by `BackoffClient._execute_backoff` when
`_current_attempt = a`: `initial_delay * factor ** (a - 1)`. -/
def backoffDelay (bs : BackoffStrategy) (a : Nat) : ℚ :=
  bs.initialDelay * bs.backoffFactor ^ (a - 1)

/-- Observable outcome of one `BackoffClient.request` call.  `waits` holds one
entry per attempt whose pre-attempt phase completed: `none` for an attempt
with no backoff wait (`_current_attempt = 0`), `some d` for an executed
`_wait(d)`. -/
structure BackoffRun where
  result : ReqResult
  waits : List (Option ℚ)
  calls : Nat
  attempts : Nat
  timeSpent : ℚ
deriving DecidableEq, Repr

/-- `BackoffClient.request`: as `requestAux`, but `_make_request` first sleeps
`backoffDelay` when `_current_attempt > 0`; the sleep runs inside the same
`wait_for`, so it is charged against the remaining budget and counted in
`_time_spent`.  A timeout during the sleep abandons the attempt before the
send; a timeout during the send still counted one transport invocation. -/
def backoffAux (s : ResilienceStrategy) (bs : BackoffStrategy)
    (tr : Nat → Nat × ℚ) : Nat → Nat → ℚ → Nat → BackoffRun
  | fuel, a, t, c =>
    if s.maxRetries ≤ a then ⟨.exhausted .maxRetriesExceeded, [], c, a, t⟩
    else
      match fuel with
      | 0 => ⟨.exhausted .maxRetriesExceeded, [], c, a, t⟩
      | fuel' + 1 =>
        let rem := s.latencyBudget - t
        if rem ≤ 0 then ⟨.exhausted .latencyBudgetExhausted, [], c, a, t⟩
        else
          let w : Option ℚ := if 0 < a then some (backoffDelay bs a) else none
          let wv := w.getD 0
          if rem < wv then ⟨.exhausted .latencyBudgetExhausted, [], c, a, t⟩
          else
            let od := tr c
            if rem < wv + od.2 then
              ⟨.exhausted .latencyBudgetExhausted, [w], c + 1, a, t⟩
            else if od.1 ∈ s.fastErrors then
              ⟨.exhausted .nonRetryableError, [w], c + 1, a, t⟩
            else if od.1 = 200 then ⟨.success, [w], c + 1, a, t⟩
            else
              let r := backoffAux s bs tr fuel' (a + 1) (t + wv + od.2) (c + 1)
              ⟨r.result, w :: r.waits, r.calls, r.attempts, r.timeSpent⟩

/-- A fresh `BackoffClient`'s `request(payload)`. -/
def backoffRun (s : ResilienceStrategy) (bs : BackoffStrategy)
    (tr : Nat → Nat × ℚ) : BackoffRun :=
  backoffAux s bs tr s.maxRetries 0 0 0

/-! Circuit breaker (`multi_client.py`) -/

/-- The mutable health state of `ManagedSender`: `_last_results` (a
`deque(maxlen=window_size)`, newest at the right) and `_recover_at` (a
`datetime`, initialised to `datetime.min` and never `None`, so the
`is None` guard in `recovery_time` is dead and is not modelled). -/
structure ManagedSender where
  lastResults : List Bool
  recoverAt : ℚ
deriving DecidableEq, Repr

/-- `deque(maxlen=w).append(b)`: append on the right, evicting from the left
whatever exceeds `w`. -/
def pushWindow (w : Nat) (l : List Bool) (b : Bool) : List Bool :=
  let l' := l ++ [b]
  l'.drop (l'.length - w)

/-- `ManagedSender.failure_rate`. -/
def failureRate (m : ManagedSender) : ℚ :=
  if m.lastResults = [] then 0
  else (m.lastResults.count false : ℚ) / (m.lastResults.length : ℚ)

/-- `ManagedSender.record_success`. -/
def recordSuccess (cb : CircuitBreakerStrategy) (m : ManagedSender) :
    ManagedSender :=
  { m with lastResults := pushWindow cb.windowSize m.lastResults true }

/-- `ManagedSender.record_failure`: append `False`, then open the circuit iff
the post-append failure rate reaches the threshold. -/
def recordFailure (cb : CircuitBreakerStrategy) (now : ℚ) (m : ManagedSender) :
    ManagedSender :=
  let m' : ManagedSender :=
    { m with lastResults := pushWindow cb.windowSize m.lastResults false }
  if cb.failureThreshold ≤ failureRate m' then
    { m' with recoverAt := now + cb.recoveryTimeout }
  else m'

/-- `ManagedSender.recovery_time`: `_recover_at - datetime.now()`, with no
clamping (the `_recover_at is None` branch is unreachable). -/
def recoveryTime (now : ℚ) (m : ManagedSender) : ℚ :=
  m.recoverAt - now

/-- `ManagedSender.is_circuit_open`: `datetime.now() < _recover_at`. -/
def isCircuitOpen (now : ℚ) (m : ManagedSender) : Bool :=
  decide (now < m.recoverAt)

/-- Modelled from the spec: `time_until_recovery() → max(0, open_until − now)`
as §4.3 of the spec words it; the source's `recovery_time` has no such clamp.
Named differently from the source function to compare the two. -/
def specTimeUntilRecovery (now : ℚ) (m : ManagedSender) : ℚ :=
  max 0 (m.recoverAt - now)

/-- The sort key of `CircuitBreakerMultiClient._select_sender`:
`(not manager.is_circuit_open, -manager.failure_rate, manager.recovery_time)`. -/
def senderSortKey (now : ℚ) (m : ManagedSender) : Bool × ℚ × ℚ :=
  (!(isCircuitOpen now m), -(failureRate m), recoveryTime now m)

/-- Lexicographic non-strict order on the sort key, with `false < true` on the
first component, exactly Python's tuple comparison. -/
def keyLe (x y : Bool × ℚ × ℚ) : Prop :=
  (x.1 = false ∧ y.1 = true) ∨
    (x.1 = y.1 ∧ (x.2.1 < y.2.1 ∨ (x.2.1 = y.2.1 ∧ x.2.2 ≤ y.2.2)))

instance : DecidableRel keyLe := fun x y => by
  unfold keyLe
  infer_instance

/-- The comparison `_select_sender`'s `sorted(...)` performs between two
managed senders. -/
def senderLe (now : ℚ) (m1 m2 : ManagedSender) : Prop :=
  keyLe (senderSortKey now m1) (senderSortKey now m2)

instance (now : ℚ) : DecidableRel (senderLe now) := fun m1 m2 => by
  unfold senderLe
  infer_instance

/-- `CircuitBreakerMultiClient._select_sender`: stable-sort the managed
senders ascending by `senderSortKey` and take the last element
(`sorted_senders[-1]`). -/
def selectSender (now : ℚ) (l : List ManagedSender) : Option ManagedSender :=
  (List.insertionSort (senderLe now) l).getLast?

/-- `CircuitBreakerMultiClient._make_request`, given the health state of the
selected sender and the outcome its transport would return: raise
`CIRCUIT_BREAKER_OPEN` when the circuit is open, otherwise forward the
outcome and record success exactly when it is HTTP 200, failure otherwise. -/
def cbMakeRequest (cb : CircuitBreakerStrategy) (now : ℚ) (m : ManagedSender)
    (o : Nat) : Except ExhaustedReason (Nat × ManagedSender) :=
  if isCircuitOpen now m then .error .circuitBreakerOpen
  else .ok (o, if o = 200 then recordSuccess cb m else recordFailure cb now m)

/-- Replay a sequence of `record_success` / `record_failure` calls:
each element is `(success?, now at the time of the call)`. -/
def applyOps (cb : CircuitBreakerStrategy) (ops : List (Bool × ℚ))
    (m : ManagedSender) : ManagedSender :=
  ops.foldl (fun st op => if op.1 then recordSuccess cb st
                          else recordFailure cb op.2 st) m

/-! Hedging (`multi_client.py`) -/

/-- `asyncio.wait(..., return_when=FIRST_COMPLETED)` over the still-running
primary task (whose remaining duration is `p.2`) and the freshly started
sibling tasks: the task with the smallest remaining duration completes first
(earlier task wins ties). -/
def firstCompleted (p : Nat × ℚ) (l : List (Nat × ℚ)) : Nat × ℚ :=
  l.foldl (fun best q => if q.2 < best.2 then q else best) p

/-- `HedgingMultiClient._make_request`: `primary` is the `(outcome, duration)`
of the round-robin-selected main sender, `others` those of the remaining
senders.  Returns the chosen outcome and the number of `sender.send`
invocations issued for this attempt. -/
def hedgeMakeRequest (hs : HedgingStrategy) (primary : Nat × ℚ)
    (others : List (Nat × ℚ)) : Nat × Nat :=
  if primary.2 ≤ hs.hedgingDelay then (primary.1, 1)
  else
    let winner := firstCompleted (primary.1, primary.2 - hs.hedgingDelay) others
    (winner.1, 1 + others.length)

/-! Derived notions used by the claims -/

/-- Total duration of the first `k` transport invocations of the oracle. -/
def sumDur (tr : Nat → Nat × ℚ) : Nat → ℚ
  | 0 => 0
  | k + 1 => sumDur tr k + (tr k).2

/-- Every transport call fails retryably: the outcome is neither in
`fast_errors` nor HTTP 200. -/
def allFail (s : ResilienceStrategy) (tr : Nat → Nat × ℚ) : Prop :=
  ∀ k, (tr k).1 ∉ s.fastErrors ∧ (tr k).1 ≠ 200

/-- The budget lets the `k`-th attempt start (some budget remains after the
first `k` attempts) and complete (its duration fits in the remainder). -/
def goodStep (s : ResilienceStrategy) (tr : Nat → Nat × ℚ) (k : Nat) : Prop :=
  sumDur tr k < s.latencyBudget ∧ (tr k).2 ≤ s.latencyBudget - sumDur tr k

instance (s : ResilienceStrategy) (tr : Nat → Nat × ℚ) (k : Nat) :
    Decidable (goodStep s tr k) := by
  unfold goodStep
  infer_instance

/-- The latency budget allows all `max_retries` attempts to start and
complete. -/
def budgetAllows (s : ResilienceStrategy) (tr : Nat → Nat × ℚ) : Prop :=
  ∀ k < s.maxRetries, goodStep s tr k

/-! Concrete inputs used to instantiate the claims -/

/-- One attempt, 1 s budget, and `fast_errors` containing HTTP 200. -/
def cxS1 : ResilienceStrategy := ⟨1, 1, [200]⟩

/-- A transport answering HTTP 200 instantly. -/
def cxTr1 : Nat → Nat × ℚ := fun _ => (200, 0)

/-- One attempt, 1 s budget, no fast errors. -/
def cxSW1 : ResilienceStrategy := ⟨1, 1, []⟩

/-- One attempt, 10 s budget, no fast errors. -/
def cxS3 : ResilienceStrategy := ⟨1, 10, []⟩

/-- A transport answering HTTP 500 after 1 s. -/
def cxTr3 : Nat → Nat × ℚ := fun _ => (500, 1)

/-- Three attempts, 10 s budget, HTTP 400 non-retryable. -/
def cxS4 : ResilienceStrategy := ⟨3, 10, [400]⟩

/-- A transport answering HTTP 500 after 1 s on the first call, then
HTTP 400 after 1 s. -/
def cxTr4 : Nat → Nat × ℚ := fun k => if k = 0 then (500, 1) else (400, 1)

/-- Three attempts, 100 s budget, no fast errors. -/
def cxS5 : ResilienceStrategy := ⟨3, 100, []⟩

/-- Backoff with 1 s initial delay, factor 2. -/
def cxBs5 : BackoffStrategy := ⟨1, 2⟩

/-- A transport answering HTTP 500 after 1 s. -/
def cxTr5 : Nat → Nat × ℚ := fun _ => (500, 1)

/-! Helper lemmas -/

theorem length_pushWindow_le (w : Nat) (l : List Bool) (b : Bool) :
    (pushWindow w l b).length ≤ w := by
  simp only [pushWindow, List.length_drop, List.length_append, List.length_cons,
    List.length_nil]
  omega

theorem recordFailure_lastResults (cb : CircuitBreakerStrategy) (now : ℚ)
    (m : ManagedSender) :
    (recordFailure cb now m).lastResults =
      pushWindow cb.windowSize m.lastResults false := by
  simp only [recordFailure]
  split <;> rfl

theorem recordFailure_recoverAt (cb : CircuitBreakerStrategy) (now : ℚ)
    (m : ManagedSender) :
    (recordFailure cb now m).recoverAt =
      if cb.failureThreshold ≤
          failureRate ⟨pushWindow cb.windowSize m.lastResults false, m.recoverAt⟩
        then now + cb.recoveryTimeout else m.recoverAt := by
  simp only [recordFailure]
  split <;> rfl

theorem applyOps_length_le (cb : CircuitBreakerStrategy) :
    ∀ (ops : List (Bool × ℚ)) (m : ManagedSender),
      m.lastResults.length ≤ cb.windowSize →
      (applyOps cb ops m).lastResults.length ≤ cb.windowSize := by
  intro ops
  induction ops with
  | nil => intro m hm; exact hm
  | cons op ops ih =>
    intro m _
    show (applyOps cb ops _).lastResults.length ≤ cb.windowSize
    apply ih
    by_cases hop : op.1 = true
    · simp only [applyOps, hop, if_pos]
      exact length_pushWindow_le _ _ _
    · simp only [applyOps, hop, if_neg, Bool.false_eq_true, not_false_iff]
      rw [recordFailure_lastResults]
      exact length_pushWindow_le _ _ _

theorem requestAux_nonRetryable (s : ResilienceStrategy) (tr : Nat → Nat × ℚ) :
    ∀ (fuel a : Nat) (t : ℚ) (c : Nat),
      ((requestAux s tr fuel a t c).result = .exhausted .nonRetryableError ↔
        ∃ p ∈ (requestAux s tr fuel a t c).trace, p.1 ∈ s.fastErrors) ∧
      ((requestAux s tr fuel a t c).result = .exhausted .nonRetryableError →
        ∃ p, (requestAux s tr fuel a t c).trace.getLast? = some p ∧
          p.1 ∈ s.fastErrors ∧
          (requestAux s tr fuel a t c).calls =
            c + (requestAux s tr fuel a t c).trace.length ∧
          (requestAux s tr fuel a t c).attempts + 1 =
            a + (requestAux s tr fuel a t c).trace.length ∧
          (requestAux s tr fuel a t c).timeSpent =
            t + (((requestAux s tr fuel a t c).trace.dropLast.map Prod.snd).sum)) := by
  intro fuel
  induction fuel with
  | zero =>
    intro a t c
    rw [requestAux]
    split <;> simp
  | succ fuel ih =>
    intro a t c
    rw [requestAux]
    by_cases hg : s.maxRetries ≤ a
    · simp [hg]
    · by_cases h1 : s.latencyBudget - t ≤ 0
      · simp [hg, h1]
      · by_cases h2 : s.latencyBudget - t < (tr c).2
        · simp [hg, h1, h2]
        · by_cases h3 : (tr c).1 ∈ s.fastErrors
          · simp [hg, h1, h2, h3]
          · by_cases h4 : (tr c).1 = 200
            · rw [h4] at h3
              simp [hg, h1, h2, h3, h4]
            · simp only [hg, h1, h2, h3, h4, if_false]
              obtain ⟨ihIff, ihImp⟩ := ih (a + 1) (t + (tr c).2) (c + 1)
              constructor
              · simpa [h3] using ihIff
              · intro hres
                obtain ⟨p, hlast, hfe, hcalls, hatt, hts⟩ := ihImp hres
                refine ⟨p, ?_, hfe, ?_, ?_, ?_⟩
                · rcases htr : (requestAux s tr fuel (a + 1) (t + (tr c).2) (c + 1)).trace with
                    _ | ⟨x, xs⟩
                  · rw [htr] at hlast; simp at hlast
                  · rw [htr] at hlast
                    simpa using hlast
                · simp only [List.length_cons]
                  omega
                · simp only [List.length_cons]
                  omega
                · rcases htr : (requestAux s tr fuel (a + 1) (t + (tr c).2) (c + 1)).trace with
                    _ | ⟨x, xs⟩
                  · rw [htr] at hlast; simp at hlast
                  · rw [htr] at hts
                    simp only [htr, List.dropLast_cons₂, List.map_cons, List.sum_cons]
                    rw [hts]
                    ring

theorem requestAux_calls_le (s : ResilienceStrategy) (tr : Nat → Nat × ℚ) :
    ∀ (fuel a : Nat) (t : ℚ) (c : Nat),
      (requestAux s tr fuel a t c).calls ≤ c + fuel := by
  intro fuel
  induction fuel with
  | zero =>
    intro a t c
    rw [requestAux]
    split <;> simp
  | succ fuel ih =>
    intro a t c
    rw [requestAux]
    by_cases hg : s.maxRetries ≤ a
    · simp [hg]
    · by_cases h1 : s.latencyBudget - t ≤ 0
      · simp [hg, h1]
      · by_cases h2 : s.latencyBudget - t < (tr c).2
        · simp [hg, h1, h2]
        · by_cases h3 : (tr c).1 ∈ s.fastErrors
          · simp [hg, h1, h2, h3]
          · by_cases h4 : (tr c).1 = 200
            · rw [h4] at h3
              simp [hg, h1, h2, h3, h4]
            · simp only [hg, h1, h2, h3, h4, if_false]
              have := ih (a + 1) (t + (tr c).2) (c + 1)
              show (requestAux s tr fuel (a + 1) (t + (tr c).2) (c + 1)).calls ≤
                c + (fuel + 1)
              omega

theorem requestAux_allFail_allows (s : ResilienceStrategy) (tr : Nat → Nat × ℚ)
    (hF : allFail s tr) (hB : budgetAllows s tr) :
    ∀ (fuel a : Nat), a + fuel = s.maxRetries →
      (requestAux s tr fuel a (sumDur tr a) a).result =
          .exhausted .maxRetriesExceeded ∧
        (requestAux s tr fuel a (sumDur tr a) a).attempts = s.maxRetries ∧
        (requestAux s tr fuel a (sumDur tr a) a).calls = s.maxRetries := by
  intro fuel
  induction fuel with
  | zero =>
    intro a ha
    rw [requestAux]
    simp at ha
    simp [ha]
  | succ fuel ih =>
    intro a ha
    have haM : a < s.maxRetries := by omega
    obtain ⟨hlt, hle⟩ := hB a haM
    have h1 : ¬ (s.latencyBudget - sumDur tr a ≤ 0) := by
      simp only [not_le]
      exact sub_pos.mpr hlt
    have h2 : ¬ (s.latencyBudget - sumDur tr a < (tr a).2) := not_lt.mpr hle
    obtain ⟨hfe, hok⟩ := hF a
    rw [requestAux]
    simp only [not_le.mpr haM, if_false, h1, if_false, h2, if_false, hfe,
      if_false, hok, if_false, ite_false]
    have hsum : sumDur tr a + (tr a).2 = sumDur tr (a + 1) := rfl
    rw [hsum]
    have := ih (a + 1) (by omega)
    simpa using this

theorem requestAux_allFail_stops (s : ResilienceStrategy) (tr : Nat → Nat × ℚ)
    (hF : allFail s tr) (k : Nat) (hkM : k < s.maxRetries)
    (hbad : ¬ goodStep s tr k) (hmin : ∀ j, j < k → goodStep s tr j) :
    ∀ (fuel a : Nat), a + fuel = s.maxRetries → a ≤ k →
      (requestAux s tr fuel a (sumDur tr a) a).result =
          .exhausted .latencyBudgetExhausted ∧
        (requestAux s tr fuel a (sumDur tr a) a).attempts < s.maxRetries ∧
        (requestAux s tr fuel a (sumDur tr a) a).calls ≤ s.maxRetries := by
  intro fuel
  induction fuel with
  | zero =>
    intro a ha hak
    omega
  | succ fuel ih =>
    intro a ha hak
    have haM : a < s.maxRetries := by omega
    rcases Nat.lt_or_ge a k with hlt | hge
    · -- a < k: this attempt completes and fails retryably
      obtain ⟨hglt, hgle⟩ := hmin a hlt
      have h1 : ¬ (s.latencyBudget - sumDur tr a ≤ 0) := by
        simp only [not_le]
        exact sub_pos.mpr hglt
      have h2 : ¬ (s.latencyBudget - sumDur tr a < (tr a).2) := not_lt.mpr hgle
      obtain ⟨hfe, hok⟩ := hF a
      rw [requestAux]
      simp only [not_le.mpr haM, if_false, h1, if_false, h2, if_false, hfe,
        if_false, hok, if_false, ite_false]
      have hsum : sumDur tr a + (tr a).2 = sumDur tr (a + 1) := rfl
      rw [hsum]
      have := ih (a + 1) (by omega) (by omega)
      simpa using this
    · -- a = k: the budget check or the attempt timeout fires here
      have hak' : a = k := by omega
      subst hak'
      rw [requestAux]
      by_cases h1 : s.latencyBudget - sumDur tr a ≤ 0
      · simp [not_le.mpr haM, h1]
        omega
      · have hlt : sumDur tr a < s.latencyBudget := sub_pos.mp (lt_of_not_le h1)
        have hbad' : sumDur tr a < s.latencyBudget →
            s.latencyBudget - sumDur tr a < (tr a).2 := by
          simpa [goodStep] using hbad
        have h2 : s.latencyBudget - sumDur tr a < (tr a).2 := hbad' hlt
        simp [not_le.mpr haM, h1, h2]
        omega

theorem backoffAux_waits (s : ResilienceStrategy) (bs : BackoffStrategy)
    (tr : Nat → Nat × ℚ) :
    ∀ (fuel a : Nat) (t : ℚ) (c : Nat) (i : Nat) (wo : Option ℚ),
      (backoffAux s bs tr fuel a t c).waits.get? i = some wo →
      wo = if a + i = 0 then none else some (backoffDelay bs (a + i)) := by
  intro fuel
  induction fuel with
  | zero =>
    intro a t c i wo h
    rw [backoffAux] at h
    revert h
    split <;> simp
  | succ fuel ih =>
    intro a t c i wo h
    rw [backoffAux] at h
    by_cases hg : s.maxRetries ≤ a
    · simp [hg] at h
    · simp only [hg, if_false] at h
      by_cases h1 : s.latencyBudget - t ≤ 0
      · simp [h1] at h
      · simp only [h1, if_false] at h
        by_cases h2 : s.latencyBudget - t <
            (if 0 < a then some (backoffDelay bs a) else none).getD 0
        · simp [h2] at h
        · simp only [h2, if_false] at h
          by_cases h3 : s.latencyBudget - t <
              (if 0 < a then some (backoffDelay bs a) else none).getD 0 + (tr c).2
          · simp only [h3, if_true, ite_true] at h
            rcases i with _ | i
            · simp at h
              subst h
              rcases Nat.eq_zero_or_pos a with ha | ha
              · simp [ha]
              · simp [Nat.pos_iff_ne_zero.mp ha, ha]
            · simp at h
          · simp only [h3, if_false] at h
            by_cases h4 : (tr c).1 ∈ s.fastErrors
            · simp only [h4, if_true, ite_true] at h
              rcases i with _ | i
              · simp at h
                subst h
                rcases Nat.eq_zero_or_pos a with ha | ha
                · simp [ha]
                · simp [Nat.pos_iff_ne_zero.mp ha, ha]
              · simp at h
            · simp only [h4, if_false] at h
              by_cases h5 : (tr c).1 = 200
              · simp only [h5, if_true, ite_true] at h
                rcases i with _ | i
                · simp at h
                  subst h
                  rcases Nat.eq_zero_or_pos a with ha | ha
                  · simp [ha]
                  · simp [Nat.pos_iff_ne_zero.mp ha, ha]
                · simp at h
              · simp only [h5, if_false] at h
                rcases i with _ | i
                · simp at h
                  subst h
                  rcases Nat.eq_zero_or_pos a with ha | ha
                  · simp [ha]
                  · simp [Nat.pos_iff_ne_zero.mp ha, ha]
                · simp only [List.get?_cons_succ] at h
                  have := ih (a + 1) (t + (if 0 < a then some (backoffDelay bs a)
                    else none).getD 0 + (tr c).2) (c + 1) i wo h
                  rw [this]
                  have hne : a + 1 + i ≠ 0 := by omega
                  have hne' : a + (i + 1) ≠ 0 := by omega
                  simp [hne, hne']
                  congr 1
                  omega

theorem keyLe_refl (x : Bool × ℚ × ℚ) : keyLe x x :=
  Or.inr ⟨rfl, Or.inr ⟨rfl, le_refl _⟩⟩

theorem keyLe_total (x y : Bool × ℚ × ℚ) : keyLe x y ∨ keyLe y x := by
  unfold keyLe
  rcases x with ⟨xb, xr, xt⟩
  rcases y with ⟨yb, yr, yt⟩
  rcases xb <;> rcases yb <;> simp
  all_goals
    rcases lt_trichotomy xr yr with hr | hr | hr
    · exact Or.inl (Or.inl hr)
    · rcases le_total xt yt with ht | ht
      · exact Or.inl (Or.inr ⟨hr, ht⟩)
      · exact Or.inr (Or.inr ⟨hr.symm, ht⟩)
    · exact Or.inr (Or.inl hr)

theorem keyLe_trans {x y z : Bool × ℚ × ℚ} (hxy : keyLe x y) (hyz : keyLe y z) :
    keyLe x z := by
  unfold keyLe at *
  rcases hxy with h1 | ⟨hb1, h1⟩
  · rcases hyz with h2 | ⟨hb2, h2⟩
    · rw [h1.2] at h2
      exact absurd h2.1 (by simp)
    · exact Or.inl ⟨h1.1, hb2 ▸ h1.2⟩
  · rcases hyz with h2 | ⟨hb2, h2⟩
    · exact Or.inl ⟨hb1 ▸ h2.1, h2.2⟩
    · refine Or.inr ⟨hb1.trans hb2, ?_⟩
      rcases h1 with h1 | ⟨he1, ht1⟩
      · rcases h2 with h2 | ⟨he2, ht2⟩
        · exact Or.inl (h1.trans h2)
        · exact Or.inl (he2 ▸ h1)
      · rcases h2 with h2 | ⟨he2, ht2⟩
        · exact Or.inl (he1 ▸ h2)
        · exact Or.inr ⟨he1.trans he2, ht1.trans ht2⟩

instance (now : ℚ) : IsTotal ManagedSender (senderLe now) :=
  ⟨fun a b => keyLe_total (senderSortKey now a) (senderSortKey now b)⟩

instance (now : ℚ) : IsTrans ManagedSender (senderLe now) :=
  ⟨fun _ _ _ hab hbc => keyLe_trans hab hbc⟩

theorem sorted_getLast_max {α : Type} {r : α → α → Prop}
    (hrefl : ∀ x, r x x) :
    ∀ (l : List α) (hl : l ≠ []), l.Sorted r → ∀ x ∈ l, r x (l.getLast hl) := by
  intro l
  induction l with
  | nil => intro hl; exact absurd rfl hl
  | cons a l ih =>
    intro _ hs x hx
    rcases l with _ | ⟨b, l'⟩
    · simp at hx
      subst hx
      exact hrefl _
    · rw [List.getLast_cons (by simp)]
      obtain ⟨hall, hsl⟩ := List.sorted_cons.mp hs
      rcases List.mem_cons.mp hx with hx | hx
      · subst hx
        exact hall _ (List.getLast_mem _)
      · exact ih (by simp) hsl x hx

/-! Claim theorems -/

/-- C6: `record` of a failure appends `false` to the history (evicting the
oldest entry if full) and sets `open_until = now + recovery_timeout` exactly
when the post-append failure rate reaches `failure_threshold` (otherwise it
leaves `open_until` unchanged); `record` of a success appends `true` and
leaves `open_until` unchanged — in particular it never moves it backward. -/
theorem claim6_record_semantics (cb : CircuitBreakerStrategy) (now : ℚ)
    (m : ManagedSender) :
    (recordFailure cb now m).lastResults =
        pushWindow cb.windowSize m.lastResults false ∧
      (recordFailure cb now m).recoverAt =
        (if cb.failureThreshold ≤
            failureRate ⟨pushWindow cb.windowSize m.lastResults false, m.recoverAt⟩
          then now + cb.recoveryTimeout else m.recoverAt) ∧
      (recordSuccess cb m).lastResults =
        pushWindow cb.windowSize m.lastResults true ∧
      (recordSuccess cb m).recoverAt = m.recoverAt ∧
      m.recoverAt ≤ (recordSuccess cb m).recoverAt :=
  ⟨recordFailure_lastResults cb now m, recordFailure_recoverAt cb now m,
    rfl, rfl, le_refl _⟩

/-- C7 (counterexample): the claim says `time_until_recovery()` equals
`max(0, open_until − now)` and is never negative; on the state with
`open_until = 0` observed at `now = 5`, the source's `recovery_time`
returns `-5`, which is negative and differs from the clamped value `0`. -/
theorem claim7_cx :
    recoveryTime 5 ⟨[], 0⟩ = -5 ∧ specTimeUntilRecovery 5 ⟨[], 0⟩ = 0 ∧
      recoveryTime 5 ⟨[], 0⟩ < 0 := by
  norm_num [recoveryTime, specTimeUntilRecovery]

/-- C7 (amended): `recovery_time()` returns `open_until − now` with no
clamping; it is negative whenever `now > open_until`, and it agrees with the
spec's `max(0, open_until − now)` only when `now ≤ open_until`. -/
theorem claim7_recovery_time (now : ℚ) (m : ManagedSender) :
    recoveryTime now m = m.recoverAt - now ∧
      (m.recoverAt < now → recoveryTime now m < 0) ∧
      (now ≤ m.recoverAt → recoveryTime now m = specTimeUntilRecovery now m) := by
  refine ⟨rfl, fun h => ?_, fun h => ?_⟩
  · simpa [recoveryTime] using sub_neg.mpr h
  · simp only [recoveryTime, specTimeUntilRecovery]
    exact (max_eq_right (sub_nonneg.mpr h)).symm

/-- C7 (witness for the amended claim at `now = 5`,
`open_until = 0`). -/
theorem claim7_witness :
    (0 : ℚ) < 5 ∧ recoveryTime 5 ⟨[], 0⟩ < 0 :=
  ⟨by norm_num, (claim7_recovery_time 5 ⟨[], 0⟩).2.1 (by norm_num)⟩

/-- C8: the history stays bounded by `window_size` under any sequence of
`record` operations (the oldest entry being dropped on overflow), and
`failure_rate` is the number of `false` entries divided by the history
length, with value `0` on an empty history. -/
theorem claim8_window_invariant (cb : CircuitBreakerStrategy)
    (ops : List (Bool × ℚ)) (m : ManagedSender)
    (hm : m.lastResults.length ≤ cb.windowSize) :
    (applyOps cb ops m).lastResults.length ≤ cb.windowSize ∧
      failureRate m =
        (m.lastResults.count false : ℚ) / (m.lastResults.length : ℚ) ∧
      (m.lastResults = [] → failureRate m = 0) := by
  refine ⟨applyOps_length_le cb ops m hm, ?_, fun h => by simp [failureRate, h]⟩
  by_cases h : m.lastResults = []
  · simp [failureRate, h]
  · simp [failureRate, h]

/-- C8 (witness): two failures then a success on a fresh window of size 2. -/
theorem claim8_witness :
    (applyOps ⟨2, 1/2, 7⟩ [(false, 0), (false, 1), (true, 2)]
        ⟨[], 0⟩).lastResults.length ≤ 2 ∧
      failureRate ⟨[], 0⟩ = ((0 : Nat) : ℚ) / ((0 : Nat) : ℚ) :=
  ⟨(claim8_window_invariant ⟨2, 1/2, 7⟩ [(false, 0), (false, 1), (true, 2)]
      ⟨[], 0⟩ (by decide)).1,
    by simpa using
      (claim8_window_invariant ⟨2, 1/2, 7⟩ [(false, 0), (false, 1), (true, 2)]
        ⟨[], 0⟩ (by decide)).2.1⟩

/-- C9: with `max_retries = 0` the request raises `MAX_RETRIES_EXCEEDED`
immediately — no transport invocation, no state change — because the guard
compares with `>=` and `0 >= 0` holds. -/
theorem claim9_zero_attempts (b : ℚ) (fe : List Nat) (tr : Nat → Nat × ℚ) :
    request ⟨0, b, fe⟩ tr =
      ⟨.exhausted .maxRetriesExceeded, [], 0, 0, 0⟩ := by
  simp [request, requestAux]

/-- C10: in a hedged attempt whose primary send completes within
`hedging_delay`, the dispatcher issues exactly one transport call and uses the
primary's outcome — no fan-out to the other endpoints. -/
theorem claim10_no_hedge_within_delay (hs : HedgingStrategy)
    (primary : Nat × ℚ) (others : List (Nat × ℚ))
    (h : primary.2 ≤ hs.hedgingDelay) :
    hedgeMakeRequest hs primary others = (primary.1, 1) := by
  simp [hedgeMakeRequest, h]

/-- C10 (witness): primary answers in 1/2 s against a 1 s hedging delay. -/
theorem claim10_witness :
    ((200, (1/2 : ℚ)) : Nat × ℚ).2 ≤ (1 : ℚ) ∧
      hedgeMakeRequest ⟨1⟩ (200, 1/2) [(200, 0)] = (200, 1) :=
  ⟨by norm_num,
    claim10_no_hedge_within_delay ⟨1⟩ (200, 1/2) [(200, 0)] (by norm_num)⟩

/-- C1 (counterexample): the claim promises a Success return "regardless of
the contents of fast_errors"; with `fast_errors = (200,)` the completed
Success outcome hits the `fast_errors` check first and the request raises
`NON_RETRYABLE_ERROR` instead of returning. -/
theorem claim1_cx :
    (request cxS1 cxTr1).result = .exhausted .nonRetryableError ∧
      (request cxS1 cxTr1).result ≠ .success ∧
      (cxTr1 0).1 = 200 ∧ (cxTr1 0).2 ≤ cxS1.latencyBudget ∧
      200 ∈ cxS1.fastErrors := by
  have h : (request cxS1 cxTr1).result = .exhausted .nonRetryableError := by
    norm_num [request, requestAux, cxS1, cxTr1]
  refine ⟨h, by rw [h]; exact fun hc => ReqResult.noConfusion hc,
    by norm_num [cxTr1], by norm_num [cxS1, cxTr1], by norm_num [cxS1]⟩

/-- C1 (amended): when an attempt's outcome is Success (HTTP 200) **and
Success is not in `fast_errors`**, the request returns Success; the
circuit-breaker variant records a success on the attempted endpoint whenever
a completed outcome is 200 (that part holds regardless of `fast_errors`,
which `_make_request` never consults).  The source checks `fast_errors`
before the 200 check, so `200 ∈ fast_errors` raises `NonRetryable` instead
(see the counterexample). -/
theorem claim1_success (s : ResilienceStrategy) (tr : Nat → Nat × ℚ)
    (fuel a : Nat) (t : ℚ) (c : Nat) (cb : CircuitBreakerStrategy)
    (m : ManagedSender) (now : ℚ)
    (hA : a < s.maxRetries) (hB : 0 < s.latencyBudget - t)
    (hD : (tr c).2 ≤ s.latencyBudget - t)
    (hOk : (tr c).1 = 200) (hFe : 200 ∉ s.fastErrors) :
    (requestAux s tr (fuel + 1) a t c).result = .success ∧
      (isCircuitOpen now m = false →
        cbMakeRequest cb now m 200 = .ok (200, recordSuccess cb m)) := by
  constructor
  · rw [requestAux]
    simp only [not_le.mpr hA, if_false, not_le.mpr hB, not_lt.mpr hD, hOk, hFe]
    simp [hOk, hFe]
  · intro hopen
    simp [cbMakeRequest, hopen]

/-- C1 (witness): a single instant HTTP-200 attempt with empty `fast_errors`
returns Success, and a closed-circuit managed sender records the success. -/
theorem claim1_witness :
    (requestAux cxSW1 cxTr1 1 0 0 0).result = .success ∧
      cbMakeRequest ⟨4, 1/2, 2⟩ 0 ⟨[], 0⟩ 200 =
        .ok (200, recordSuccess ⟨4, 1/2, 2⟩ ⟨[], 0⟩) := by
  have h := claim1_success cxSW1 cxTr1 0 0 0 0 ⟨4, 1/2, 2⟩ ⟨[], 0⟩ 0
    (by norm_num [cxSW1]) (by norm_num [cxSW1]) (by norm_num [cxSW1, cxTr1])
    (by norm_num [cxTr1]) (by norm_num [cxSW1])
  exact ⟨h.1, h.2 (by norm_num [isCircuitOpen])⟩

/-- C2 (counterexample): two endpoints, both open at `now = 0` with equal
failure rate 1 and recovery times 1 and 5; the selector returns the one with
the **larger** `recovery_time`, not the one with the smallest
`time_until_recovery` as the claim states. -/
theorem claim2_cx :
    selectSender 0 [⟨[false], 1⟩, ⟨[false], 5⟩] = some ⟨[false], 5⟩ ∧
      isCircuitOpen 0 ⟨[false], 1⟩ = true ∧
      isCircuitOpen 0 ⟨[false], 5⟩ = true ∧
      failureRate ⟨[false], 1⟩ = failureRate ⟨[false], 5⟩ ∧
      specTimeUntilRecovery 0 ⟨[false], 1⟩ <
        specTimeUntilRecovery 0 ⟨[false], 5⟩ := by
  norm_num [selectSender, senderLe, keyLe, senderSortKey, isCircuitOpen,
    failureRate, recoveryTime, specTimeUntilRecovery, List.insertionSort,
    List.orderedInsert]

/-- C2 (amended): on a non-empty endpoint list the health-ranked selector
returns an endpoint that is **maximal** under the lexicographic key
`(not is_open, -failure_rate, recovery_time)` — equivalently, minimal under
`(is_open ascending, failure_rate ascending)` with ties broken towards the
**largest** unclamped `recovery_time`, not the smallest
`time_until_recovery`. -/
theorem claim2_selector (now : ℚ) (l : List ManagedSender) (hl : l ≠ []) :
    ∃ m, selectSender now l = some m ∧ m ∈ l ∧
      ∀ m' ∈ l, senderLe now m' m := by
  have hperm := List.perm_insertionSort (senderLe now) l
  have hsorted := List.sorted_insertionSort (senderLe now) l
  have hne : List.insertionSort (senderLe now) l ≠ [] := by
    intro hnil
    exact hl ((hnil ▸ hperm).symm.eq_nil)
  refine ⟨(List.insertionSort (senderLe now) l).getLast hne, ?_, ?_, ?_⟩
  · exact List.getLast?_eq_getLast _ hne
  · exact (List.mem_insertionSort (senderLe now)).mp (List.getLast_mem hne)
  · intro m' hm'
    exact sorted_getLast_max (r := senderLe now) (fun x => keyLe_refl _) _ hne
      hsorted m' ((List.mem_insertionSort (senderLe now)).mpr hm')

/-- C2 (witness): the selector on a singleton list. -/
theorem claim2_witness :
    ([(⟨[], 0⟩ : ManagedSender)] ≠ []) ∧
      ∃ m, selectSender 0 [⟨[], 0⟩] = some m ∧
        m ∈ [(⟨[], 0⟩ : ManagedSender)] ∧
        ∀ m' ∈ [(⟨[], 0⟩ : ManagedSender)], senderLe 0 m' m :=
  ⟨by simp, claim2_selector 0 _ (by simp)⟩

/-- C3: a request invokes the transport at most `max_retries` times; on a
`fast_errors`-free all-failing run, the final number of attempts used (the
`_current_attempt` counter, which counts completed attempts) equals
`max_retries` — and `MAX_RETRIES_EXCEEDED` is raised, after exactly
`max_retries` transport calls — when the budget allows every attempt, and is
strictly smaller — with `LATENCY_BUDGET_EXHAUSTED` raised — otherwise. -/
theorem claim3_attempt_counts (s : ResilienceStrategy) (tr : Nat → Nat × ℚ) :
    (request s tr).calls ≤ s.maxRetries ∧
      (allFail s tr →
        (budgetAllows s tr →
          (request s tr).attempts = s.maxRetries ∧
            (request s tr).calls = s.maxRetries ∧
            (request s tr).result = .exhausted .maxRetriesExceeded) ∧
        (¬ budgetAllows s tr →
          (request s tr).attempts < s.maxRetries ∧
            (request s tr).result = .exhausted .latencyBudgetExhausted)) := by
  have hreq : request s tr = requestAux s tr s.maxRetries 0 (sumDur tr 0) 0 := rfl
  constructor
  · have := requestAux_calls_le s tr s.maxRetries 0 0 0
    simpa [request] using this
  · intro hF
    constructor
    · intro hB
      have := requestAux_allFail_allows s tr hF hB s.maxRetries 0 (by omega)
      rw [hreq]
      exact ⟨this.2.1, this.2.2, this.1⟩
    · intro hNB
      have hex : ∃ n, n < s.maxRetries ∧ ¬ goodStep s tr n := by
        by_contra hc
        push_neg at hc
        exact hNB fun k hk => hc k hk
      classical
      let k := Nat.find hex
      obtain ⟨hkM, hkbad⟩ : k < s.maxRetries ∧ ¬ goodStep s tr k :=
        Nat.find_spec hex
      have hmin : ∀ j, j < k → goodStep s tr j := by
        intro j hj
        have := Nat.find_min hex hj
        push_neg at this
        exact this (by omega)
      have := requestAux_allFail_stops s tr hF k hkM hkbad hmin s.maxRetries 0
        (by omega) (by omega)
      rw [hreq]
      exact ⟨this.2.1, this.1⟩

/-- C3 (witness): one failing 1 s attempt inside a 10 s budget. -/
theorem claim3_witness :
    allFail cxS3 cxTr3 ∧ budgetAllows cxS3 cxTr3 ∧
      (request cxS3 cxTr3).attempts = cxS3.maxRetries ∧
      (request cxS3 cxTr3).calls = cxS3.maxRetries ∧
      (request cxS3 cxTr3).result = .exhausted .maxRetriesExceeded := by
  have hF : allFail cxS3 cxTr3 := fun k => ⟨by norm_num [cxS3, cxTr3],
    by norm_num [cxTr3]⟩
  have hB : budgetAllows cxS3 cxTr3 := by
    intro k hk
    have hk0 : k = 0 := by
      simpa [cxS3] using hk
    subst hk0
    constructor <;> norm_num [goodStep, sumDur, cxS3, cxTr3]
  have h := ((claim3_attempt_counts cxS3 cxTr3).2 hF).1 hB
  exact ⟨hF, hB, h.1, h.2.1, h.2.2⟩

/-- C4: the request raises `NON_RETRYABLE_ERROR` iff some observed outcome is
in `fast_errors`; in that case the offending outcome is the last one observed
(no further attempt is issued, every transport call completed), and the
failing attempt leaves `_current_attempt` and `_time_spent` unchanged: they
still count only the earlier, retryable attempts. -/
theorem claim4_non_retryable (s : ResilienceStrategy) (tr : Nat → Nat × ℚ) :
    ((request s tr).result = .exhausted .nonRetryableError ↔
      ∃ p ∈ (request s tr).trace, p.1 ∈ s.fastErrors) ∧
    ((request s tr).result = .exhausted .nonRetryableError →
      ∃ p, (request s tr).trace.getLast? = some p ∧ p.1 ∈ s.fastErrors ∧
        (request s tr).calls = (request s tr).trace.length ∧
        (request s tr).attempts + 1 = (request s tr).trace.length ∧
        (request s tr).timeSpent =
          ((request s tr).trace.dropLast.map Prod.snd).sum) := by
  obtain ⟨hIff, hImp⟩ := requestAux_nonRetryable s tr s.maxRetries 0 0 0
  refine ⟨hIff, fun hres => ?_⟩
  obtain ⟨p, hlast, hfe, hcalls, hatt, hts⟩ := hImp hres
  exact ⟨p, hlast, hfe, by simpa using hcalls, by simpa using hatt,
    by simpa using hts⟩

/-- C4 (witness): a retryable 500 followed by a non-retryable 400. -/
theorem claim4_witness :
    (request cxS4 cxTr4).result = .exhausted .nonRetryableError ∧
      ∃ p, (request cxS4 cxTr4).trace.getLast? = some p ∧
        p.1 ∈ cxS4.fastErrors ∧
        (request cxS4 cxTr4).calls = (request cxS4 cxTr4).trace.length ∧
        (request cxS4 cxTr4).attempts + 1 = (request cxS4 cxTr4).trace.length ∧
        (request cxS4 cxTr4).timeSpent =
          ((request cxS4 cxTr4).trace.dropLast.map Prod.snd).sum :=
  ⟨by norm_num [request, requestAux, cxS4, cxTr4],
    (claim4_non_retryable cxS4 cxTr4).2
      (by norm_num [request, requestAux, cxS4, cxTr4])⟩

/-- C5: under `Backoff{initial_delay = d, factor = f}` the wait executed
before the n-th attempt (n ≥ 2) is `d * f ^ (n - 2)`, the first attempt has no
wait, and a zero `initial_delay` makes every executed wait zero. -/
theorem claim5_backoff_schedule (s : ResilienceStrategy) (bs : BackoffStrategy)
    (tr : Nat → Nat × ℚ) :
    (∀ wo, (backoffRun s bs tr).waits.get? 0 = some wo → wo = none) ∧
      (∀ (n : Nat) (wo : Option ℚ), 2 ≤ n →
        (backoffRun s bs tr).waits.get? (n - 1) = some wo →
        wo = some (bs.initialDelay * bs.backoffFactor ^ (n - 2)) ∧
          (bs.initialDelay = 0 → wo = some 0)) := by
  constructor
  · intro wo h
    have := backoffAux_waits s bs tr s.maxRetries 0 0 0 0 wo h
    simpa using this
  · intro n wo hn h
    have := backoffAux_waits s bs tr s.maxRetries 0 0 0 (n - 1) wo h
    have hne : 0 + (n - 1) ≠ 0 := by omega
    rw [if_neg hne] at this
    have hexp : 0 + (n - 1) - 1 = n - 2 := by omega
    rw [this]
    constructor
    · have h11 : n - 1 - 1 = n - 2 := by omega
      simp [backoffDelay, h11]
    · intro h0
      simp [backoffDelay, h0]

/-- C5 (witness): with `d = 1`, `f = 2` the wait before the third attempt is
2 s. -/
theorem claim5_witness :
    (2 ≤ 3 ∧ (backoffRun cxS5 cxBs5 cxTr5).waits.get? (3 - 1) = some (some 2)) ∧
      (some 2 : Option ℚ) =
          some (cxBs5.initialDelay * cxBs5.backoffFactor ^ (3 - 2)) ∧
        (cxBs5.initialDelay = 0 → (some 2 : Option ℚ) = some 0) :=
  ⟨⟨by norm_num,
      by norm_num [backoffRun, backoffAux, backoffDelay, cxS5, cxBs5, cxTr5]⟩,
    (claim5_backoff_schedule cxS5 cxBs5 cxTr5).2 3 (some 2) (by norm_num)
      (by norm_num [backoffRun, backoffAux, backoffDelay, cxS5, cxBs5, cxTr5])⟩

end Resilience
